import Mathlib

/-!
Verification development for the SyncNSweat backend's Spotify token
lifecycle manager (`app/services/spotify_interceptor.py`) and
playlist-generation pipeline (`app/services/playlist_selector.py`).

The Python code is shallowly embedded: outbound HTTP requests are modelled
by an environment function giving the outcome of the i-th request, the
refresh-token callback by an environment function giving the outcome of the
i-th callback invocation, and the persistence callback likewise.  Each run
produces the returned value together with a list of observable events
(requests issued with the bearer token used, refresh-callback invocations,
persistence-callback invocations with the payload passed).
-/

namespace SyncNSweat

/-- The raw token payload returned by the refresh-token callback
(`refresh_token_callback(refresh_token)` in the Python source), i.e. the
provider's token-endpoint response dict.  Only the fields the interceptor
and the spec mention are modelled. -/
structure Payload where
  access_token : Option String
  refresh_token : Option String
  expires_in : Option Int
  deriving DecidableEq, Repr

/-- Outcome of invoking a Python callback: it either raises an exception or
returns a value. -/
inductive CbResult (α : Type) where
  | raises : CbResult α
  | returns (val : α) : CbResult α
  deriving DecidableEq, Repr

/-- Python truthiness of an `Optional[str]`: `None` and the empty string are
falsy, any other string is truthy. -/
def truthy : Option String → Bool
  | none => false
  | some s => s ≠ ""

/-- An HTTP response as the interceptor sees it: a status code and a body.
`body = none` models a body that is not valid JSON (`response.json()`
raises `ValueError`); `body = some s` models a parseable JSON body. -/
structure Resp where
  status : Nat
  body : Option String
  deriving DecidableEq, Repr

/-- Outcome of one call to `requests.request`: either a transport-level
failure (`requests.RequestException`, e.g. a timeout), which the source
turns into `SpotifyAPIError`, or a response. -/
inductive HttpOutcome where
  | netError : HttpOutcome
  | ok (r : Resp) : HttpOutcome
  deriving DecidableEq, Repr

/-- Observable events of one `intercept_request` run, in order:
`reqEv tok` — an HTTP request was issued with `Authorization: Bearer tok`;
`refreshEv` — the refresh-token callback was invoked;
`persistEv p` — the persistence callback was invoked with raw payload `p`. -/
inductive Ev where
  | reqEv (token : String) : Ev
  | refreshEv : Ev
  | persistEv (p : Payload) : Ev
  deriving DecidableEq, Repr

/-- The exceptions `intercept_request` can raise:
`tokenExpired` is `SpotifyTokenExpiredException("Failed to refresh token")`,
`apiError` is `SpotifyAPIError` (transport failure). -/
inductive IErr where
  | tokenExpired : IErr
  | apiError : IErr
  deriving DecidableEq, Repr

/-- Source `SpotifyInterceptor.is_token_expired`: true iff `expires_at` is given
and `expires_at - now` is below the buffer (`token_buffer_seconds = 300`). -/
def is_token_expired (buffer : Int) (now : Int) : Option Int → Bool
  | none => false
  | some expires_at => expires_at - now < buffer

/-- Source `SpotifyInterceptor.refresh_expired_token`.  Here `cb` is the outcome of the
refresh-token callback; `persist = some outcome` means a persistence
callback is installed and invoking it has the given outcome.  Returns the
new access token (when the callback returned a payload with a truthy
`access_token`) together with the events emitted.  The persistence
callback's outcome is discarded (the source wraps the call in
`try/except`), and a callback exception never changes the return value. -/
def refresh_expired_token (cb : CbResult Payload) (persist : Option (CbResult Unit)) :
    Option String × List Ev :=
  match cb with
  | .raises => (none, [.refreshEv])
  | .returns td =>
    if truthy td.access_token then
      match persist with
      | some _ => (td.access_token, [.refreshEv, .persistEv td])
      | none => (td.access_token, [.refreshEv])
    else (none, [.refreshEv])

/-- The send-plus-reactive-401 part of `SpotifyInterceptor.intercept_request`
(lines 148–173 of the source): issue the request with bearer token `tok`
(environment outcome `responses 0`); on a 401 with a truthy refresh token,
call `refresh_expired_token` (the `rIdx`-th refresh-callback invocation of
the run) and, when it yields a token, retry exactly once (`responses 1`).
A failed reactive refresh, or any second response (401 included), is
returned to the caller. -/
def sendAndReact (responses : Nat → HttpOutcome) (refreshes : Nat → CbResult Payload)
    (persist : Option (Nat → CbResult Unit)) (refresh_token : Option String)
    (rIdx : Nat) (tok : String) : List Ev × Except IErr Resp :=
  match responses 0 with
  | .netError => ([.reqEv tok], .error .apiError)
  | .ok r =>
    if r.status = 401 ∧ truthy refresh_token then
      let rr := refresh_expired_token (refreshes rIdx) (persist.map (fun f => f rIdx))
      match rr.1 with
      | some t2 =>
        match responses 1 with
        | .netError => (.reqEv tok :: rr.2 ++ [.reqEv t2], .error .apiError)
        | .ok r2 => (.reqEv tok :: rr.2 ++ [.reqEv t2], .ok r2)
      | none => (.reqEv tok :: rr.2, .ok r)
    else ([.reqEv tok], .ok r)

/-- Source `SpotifyInterceptor.intercept_request`.  Proactive check first: when
`is_token_expired` holds and the refresh token is truthy, refresh before
issuing the request; a failed proactive refresh raises
`SpotifyTokenExpiredException` (no request is issued).  Then the request is
issued and the reactive-401 logic of `sendAndReact` runs.  `responses i` is
the outcome of the i-th HTTP request of the run and `refreshes i` the
outcome of the i-th refresh-callback invocation. -/
def intercept_request (responses : Nat → HttpOutcome) (refreshes : Nat → CbResult Payload)
    (persist : Option (Nat → CbResult Unit)) (now : Int)
    (access_token : String) (refresh_token : Option String) (expires_at : Option Int) :
    List Ev × Except IErr Resp :=
  if is_token_expired 300 now expires_at ∧ truthy refresh_token then
    let pr := refresh_expired_token (refreshes 0) (persist.map (fun f => f 0))
    match pr.1 with
    | some t =>
      let s := sendAndReact responses refreshes persist refresh_token 1 t
      (pr.2 ++ s.1, s.2)
    | none => (pr.2, .error .tokenExpired)
  else
    sendAndReact responses refreshes persist refresh_token 0 access_token

/-- Result of `SpotifyInterceptor.make_request`: either the parsed JSON
body, or the `{"error": "Invalid JSON response", "status_code": ...}` dict
built when the body is not valid JSON. -/
inductive ApiResult where
  | parsed (body : String) : ApiResult
  | invalidJson (status : Nat) : ApiResult
  deriving DecidableEq, Repr

/-- Source `SpotifyInterceptor.make_request`: run `intercept_request` and parse the
JSON body, substituting the error-marker dict when parsing fails.
Exceptions from `intercept_request` propagate. -/
def make_request (responses : Nat → HttpOutcome) (refreshes : Nat → CbResult Payload)
    (persist : Option (Nat → CbResult Unit)) (now : Int)
    (access_token : String) (refresh_token : Option String) (expires_at : Option Int) :
    List Ev × Except IErr ApiResult :=
  let r := intercept_request responses refreshes persist now access_token refresh_token expires_at
  (r.1, r.2.map (fun resp =>
    match resp.body with
    | some b => .parsed b
    | none => .invalidJson resp.status))

/-- Number of HTTP requests issued in an event list. -/
def reqCount (l : List Ev) : Nat :=
  (l.filter fun e => match e with | .reqEv _ => true | _ => false).length

/-- Number of refresh-callback invocations in an event list. -/
def refreshCount (l : List Ev) : Nat :=
  (l.filter fun e => match e with | .refreshEv => true | _ => false).length

/-- Predicate selecting events that are not HTTP requests. -/
def notReq : Ev → Bool
  | .reqEv _ => false
  | _ => true

/-- Number of refresh-callback invocations that happen before the first
HTTP request is issued. -/
def refreshesBeforeFirstReq (l : List Ev) : Nat :=
  refreshCount (l.takeWhile notReq)

/-!
## Playlist-generation pipeline (`app/services/playlist_selector.py`)

`select_playlist_for_workout` is embedded piecewise as pure functions over
the JSON data it manipulates: a track dict is a `Track` (only the fields
the selector reads), an artist dict an `Artist`, and the duration-bounded
accumulation loop `_accumulate_from_tracks` a fold over a mutable-state
record `AccState`.
-/

/-- A track object as read by the selector: `t.get("id")`, `t.get("uri")`
and `t.get("duration_ms")`.  A missing key is `none`; `duration_ms = none`
also models a present value that is not an `int` (the source checks
`isinstance(dur, int)`). -/
structure Track where
  id : Option String
  uri : Option String
  duration_ms : Option Int
  deriving DecidableEq, Repr

/-- An artist object as read by the selector: only `a.get("id")`. -/
structure Artist where
  id : Option String
  deriving DecidableEq, Repr

/-- Source `max_duration_ms = duration_minutes * 60 * 1000 if duration_minutes is
not None else 60 * 60 * 1000`. -/
def maxDurationMs : Option Int → Int
  | some m => m * 60 * 1000
  | none => 60 * 60 * 1000

/-- The mutable state of the accumulation loop (`total_ms`,
`seen_track_ids`, `chosen_uris`), plus the ghost field `chosen_durs`
recording the `duration_ms` of each accepted track in order, so that the
spec's "sum of accumulated track durations" is a stated quantity. -/
structure AccState where
  total_ms : Int
  seen : List String
  chosen_uris : List String
  chosen_durs : List Int
  deriving DecidableEq, Repr

/-- The state before any accumulation (`total_ms = 0`, empty set, empty
list). -/
def initAccState : AccState := ⟨0, [], [], []⟩

/-- One iteration of the `_accumulate_from_tracks` loop body (after the
break check): skip a track whose id is falsy, already seen, or a seed-track
id; skip a track with a falsy uri or a non-int duration; otherwise record
the id as seen, append the uri and add the duration to the running
total. -/
def accStep (seedSet : List String) (st : AccState) (t : Track) : AccState :=
  match t.id with
  | none => st
  | some tid =>
    if tid = "" ∨ tid ∈ st.seen ∨ tid ∈ seedSet then st
    else
      match t.uri, t.duration_ms with
      | some uri, some dur =>
        if uri = "" then st
        else
          { total_ms := st.total_ms + dur
            seen := tid :: st.seen
            chosen_uris := st.chosen_uris ++ [uri]
            chosen_durs := st.chosen_durs ++ [dur] }
      | _, _ => st

/-- Source `_accumulate_from_tracks` (lines 211–225): iterate the candidate
tracks in order, breaking out of the loop once
`total_ms >= max_duration_ms`, applying `accStep` to each track. -/
def _accumulate_from_tracks (maxMs : Int) (seedSet : List String) :
    List Track → AccState → AccState
  | [], st => st
  | t :: ts, st =>
    if maxMs ≤ st.total_ms then st
    else _accumulate_from_tracks maxMs seedSet ts (accStep seedSet st t)

/-- Steps 7 of the pipeline: accumulate from the recommendation tracks and,
if that chose nothing (`if not chosen_uris`), accumulate from the (already
shuffled) union of top tracks and recently played tracks with the same
budget, seed set and state. -/
def pipelineAccumulate (maxMs : Int) (seedSet : List String)
    (recTracks fallbackTracks : List Track) : AccState :=
  let st1 := _accumulate_from_tracks maxMs seedSet recTracks initAccState
  if st1.chosen_uris = [] then
    _accumulate_from_tracks maxMs seedSet fallbackTracks st1
  else st1

/-- Step 4 of the pipeline, seed tracks: the truthy ids of the first three
top tracks (`for t in top_tracks[:3]`). -/
def seedTrackIds (topTracks : List Track) : List String :=
  (topTracks.take 3).filterMap fun t =>
    match t.id with
    | some tid => if tid = "" then none else some tid
    | none => none

/-- Step 4 of the pipeline, seed artists: the truthy ids of the first two
top artists (`for a in top_artists[:2]`). -/
def seedArtistIds (topArtists : List Artist) : List String :=
  (topArtists.take 2).filterMap fun a =>
    match a.id with
    | some aid => if aid = "" then none else some aid
    | none => none

/-- Source `remaining_seed_slots = max(0, 5 - (len(seed_track_ids) +
len(seed_artist_ids)))`. -/
def remaining_seed_slots (nTracks nArtists : Nat) : Nat :=
  (max 0 (5 - (nTracks : Int) - (nArtists : Int))).toNat

/-- Python `str.strip()`: drop leading and trailing whitespace.  Modelled
on the string's character list so that it evaluates by kernel
reduction. -/
def pyStrip (s : String) : String :=
  ⟨((s.data.dropWhile Char.isWhitespace).reverse.dropWhile Char.isWhitespace).reverse⟩

/-- Python `str.lower()`: lower-case every character.  Modelled on the
character list. -/
def pyLower (s : String) : String :=
  ⟨s.data.map Char.toLower⟩

/-- Step 3 of the pipeline, requested genres: strip and lower-case each
non-blank entry of `music_genres`, then truncate to the first five
(`requested_genres[:5]`). -/
def requested_genres (music_genres : List String) : List String :=
  ((music_genres.filter fun g => g ≠ "" ∧ pyStrip g ≠ "").map
    fun g => pyLower (pyStrip g)).take 5

/-- Step 3 of the pipeline, validated genres: keep the requested genres
that appear in the provider's available-genre-seeds list, in order. -/
def validated_genres (available : List String) (music_genres : List String) :
    List String :=
  (requested_genres music_genres).filter fun g => g ∈ available

/-- Step 4 of the pipeline, genre seeds: the validated genres truncated to
the remaining seed budget. -/
def seed_genres_used (available : List String) (music_genres : List String)
    (topTracks : List Track) (topArtists : List Artist) : List String :=
  (validated_genres available music_genres).take
    (remaining_seed_slots (seedTrackIds topTracks).length (seedArtistIds topArtists).length)

/-- Largest `duration_ms` occurring in a candidate list (0 when none):
bounds how far the accumulated total can overshoot the budget. -/
def durBound (l : List Track) : Int :=
  (l.filterMap Track.duration_ms).foldr max 0

/-- A candidate track that the accumulation loop can never skip for
data reasons: truthy id outside the seed set, truthy uri, int duration. -/
def goodTrack (seedSet : List String) (t : Track) : Bool :=
  match t.id, t.uri, t.duration_ms with
  | some tid, some uri, some _ => tid ≠ "" ∧ tid ∉ seedSet ∧ uri ≠ ""
  | _, _, _ => false

/-- Order-preserving deduplication keeping first occurrences, used to state
the spec's "deduplicated" genre handling. -/
def dedupAcc (seen : List String) : List String → List String
  | [] => []
  | g :: gs => if g ∈ seen then dedupAcc seen gs else g :: dedupAcc (g :: seen) gs

/-- The genre seeds as the spec sentence describes them: case-folded,
**deduplicated**, truncated to five before validation, validated against
the available list, truncated to the remaining budget.  Written from the
spec's words for comparison with `seed_genres_used`. -/
def spec_seed_genres (available : List String) (music_genres : List String)
    (slots : Nat) : List String :=
  ((dedupAcc [] (((music_genres.filter fun g => g ≠ "" ∧ pyStrip g ≠ "").map
    fun g => pyLower (pyStrip g)))).take 5).filter (fun g => g ∈ available) |>.take slots

/-- The genre seeds as the amended claim describes them: the stripped,
lower-cased non-blank requested genres — duplicates preserved — truncated
to five before validation, filtered to those in the available list, then
truncated to the remaining budget.  Written independently of
`seed_genres_used` (a single `filterMap` pass instead of
filter-then-map) for the refinement comparison. -/
def spec_seed_genres_amended (available : List String) (music_genres : List String)
    (slots : Nat) : List String :=
  (((music_genres.filterMap fun g =>
      if g = "" ∨ pyStrip g = "" then none else some (pyLower (pyStrip g))).take 5).filter
    fun g => g ∈ available).take slots

/-!
## Helper lemmas
-/

theorem refresh_events_cases (cb : CbResult Payload) (p : Option (CbResult Unit)) :
    (refresh_expired_token cb p).2 = [.refreshEv] ∨
      ∃ td, (refresh_expired_token cb p).2 = [.refreshEv, .persistEv td] := by
  cases cb with
  | raises => left; rfl
  | returns td =>
    by_cases h : truthy td.access_token
    · cases p with
      | none => left; simp [refresh_expired_token, h]
      | some _ => right; exact ⟨td, by simp [refresh_expired_token, h]⟩
    · left; simp [refresh_expired_token, h]

theorem refresh_events_notReq (cb : CbResult Payload) (p : Option (CbResult Unit)) :
    ∀ e ∈ (refresh_expired_token cb p).2, notReq e = true := by
  rcases refresh_events_cases cb p with h | ⟨td, h⟩ <;> rw [h] <;> intro e he <;>
    simp at he
  · subst he; rfl
  · rcases he with he | he <;> subst he <;> rfl

theorem refresh_events_refreshCount (cb : CbResult Payload) (p : Option (CbResult Unit)) :
    refreshCount (refresh_expired_token cb p).2 = 1 := by
  rcases refresh_events_cases cb p with h | ⟨td, h⟩ <;> rw [h] <;> rfl

theorem refresh_events_reqCount (cb : CbResult Payload) (p : Option (CbResult Unit)) :
    reqCount (refresh_expired_token cb p).2 = 0 := by
  rcases refresh_events_cases cb p with h | ⟨td, h⟩ <;> rw [h] <;> rfl

theorem sendAndReact_head (responses : Nat → HttpOutcome) (refreshes : Nat → CbResult Payload)
    (persist : Option (Nat → CbResult Unit)) (rt : Option String) (rIdx : Nat) (tok : String) :
    ∃ rest, (sendAndReact responses refreshes persist rt rIdx tok).1 = .reqEv tok :: rest := by
  unfold sendAndReact
  cases responses 0 with
  | netError => exact ⟨[], rfl⟩
  | ok r =>
    by_cases h : r.status = 401 ∧ truthy rt
    · simp only [if_pos h]
      cases hr : (refresh_expired_token (refreshes rIdx) (persist.map fun f => f rIdx)).1 with
      | some t2 =>
        cases responses 1 with
        | netError => exact ⟨_, rfl⟩
        | ok r2 => exact ⟨_, rfl⟩
      | none => exact ⟨_, rfl⟩
    · simp only [if_neg h]
      exact ⟨[], rfl⟩

theorem takeWhile_append_of_all {p : Ev → Bool} (l1 l2 : List Ev)
    (h : ∀ e ∈ l1, p e = true) :
    (l1 ++ l2).takeWhile p = l1 ++ l2.takeWhile p := by
  induction l1 with
  | nil => simp
  | cons x xs ih =>
    have hx : p x = true := h x (by simp)
    simp only [List.cons_append, List.takeWhile_cons, hx, if_true]
    rw [ih fun e he => h e (by simp [he])]

@[simp] theorem refreshCount_nil : refreshCount [] = 0 := rfl

@[simp] theorem reqCount_nil : reqCount [] = 0 := rfl

@[simp] theorem refreshCount_cons_req (t : String) (l : List Ev) :
    refreshCount (.reqEv t :: l) = refreshCount l := by
  simp [refreshCount, List.filter]

@[simp] theorem refreshCount_cons_refresh (l : List Ev) :
    refreshCount (.refreshEv :: l) = refreshCount l + 1 := by
  simp [refreshCount, List.filter]

@[simp] theorem refreshCount_cons_persist (p : Payload) (l : List Ev) :
    refreshCount (.persistEv p :: l) = refreshCount l := by
  simp [refreshCount, List.filter]

@[simp] theorem reqCount_cons_req (t : String) (l : List Ev) :
    reqCount (.reqEv t :: l) = reqCount l + 1 := by
  simp [reqCount, List.filter]

@[simp] theorem reqCount_cons_refresh (l : List Ev) :
    reqCount (.refreshEv :: l) = reqCount l := by
  simp [reqCount, List.filter]

@[simp] theorem reqCount_cons_persist (p : Payload) (l : List Ev) :
    reqCount (.persistEv p :: l) = reqCount l := by
  simp [reqCount, List.filter]

@[simp] theorem refreshCount_append (l1 l2 : List Ev) :
    refreshCount (l1 ++ l2) = refreshCount l1 + refreshCount l2 := by
  simp [refreshCount, List.filter_append]

@[simp] theorem reqCount_append (l1 l2 : List Ev) :
    reqCount (l1 ++ l2) = reqCount l1 + reqCount l2 := by
  simp [reqCount, List.filter_append]

theorem refresh_persist_outcome_irrelevant (cb : CbResult Payload) (x y : CbResult Unit) :
    refresh_expired_token cb (some x) = refresh_expired_token cb (some y) := by
  cases cb <;> rfl

theorem sendAndReact_persist_irrelevant (responses : Nat → HttpOutcome)
    (refreshes : Nat → CbResult Payload) (po po' : Nat → CbResult Unit)
    (rt : Option String) (rIdx : Nat) (tok : String) :
    sendAndReact responses refreshes (some po) rt rIdx tok
      = sendAndReact responses refreshes (some po') rt rIdx tok := by
  unfold sendAndReact
  cases responses 0 with
  | netError => rfl
  | ok r =>
    by_cases h : r.status = 401 ∧ truthy rt
    · simp only [if_pos h, Option.map_some']
      rw [refresh_persist_outcome_irrelevant (refreshes rIdx) (po rIdx) (po' rIdx)]
    · simp only [if_neg h]

theorem accStep_cases (seeds : List String) (st : AccState) (t : Track) :
    accStep seeds st t = st ∨
      ∃ tid uri dur, t.id = some tid ∧ t.uri = some uri ∧ t.duration_ms = some dur ∧
        tid ≠ "" ∧ tid ∉ st.seen ∧ tid ∉ seeds ∧ uri ≠ "" ∧
        accStep seeds st t =
          { total_ms := st.total_ms + dur, seen := tid :: st.seen,
            chosen_uris := st.chosen_uris ++ [uri], chosen_durs := st.chosen_durs ++ [dur] } := by
  rcases hid : t.id with _ | tid
  · left; simp [accStep, hid]
  · by_cases hguard : tid = "" ∨ tid ∈ st.seen ∨ tid ∈ seeds
    · left; simp [accStep, hid, hguard]
    · push_neg at hguard
      rcases huri : t.uri with _ | uri
      · left; rcases hdur : t.duration_ms with _ | dur <;>
          simp [accStep, hid, huri, hdur, hguard.1, hguard.2.1, hguard.2.2]
      · rcases hdur : t.duration_ms with _ | dur
        · left; simp [accStep, hid, huri, hdur, hguard.1, hguard.2.1, hguard.2.2]
        · by_cases hu : uri = ""
          · left; simp [accStep, hid, huri, hdur, hguard.1, hguard.2.1, hguard.2.2, hu]
          · right
            exact ⟨tid, uri, dur, rfl, rfl, rfl, hguard.1, hguard.2.1, hguard.2.2, hu,
              by simp [accStep, hid, huri, hdur, hguard.1, hguard.2.1, hguard.2.2, hu]⟩

theorem accumulate_stop (maxMs : Int) (seeds : List String) (l : List Track) (st : AccState)
    (h : maxMs ≤ st.total_ms) : _accumulate_from_tracks maxMs seeds l st = st := by
  cases l with
  | nil => rfl
  | cons t ts => unfold _accumulate_from_tracks; simp [h]

theorem accumulate_chosen_len_mono (maxMs : Int) (seeds : List String) (l : List Track) :
    ∀ st : AccState,
      st.chosen_uris.length ≤ (_accumulate_from_tracks maxMs seeds l st).chosen_uris.length := by
  induction l with
  | nil => intro st; exact le_refl _
  | cons t ts ih =>
    intro st
    unfold _accumulate_from_tracks
    by_cases h : maxMs ≤ st.total_ms
    · simp [h]
    · rw [if_neg h]
      rcases accStep_cases seeds st t with hs | ⟨tid, uri, dur, _, _, _, _, _, _, _, hs⟩
      · rw [hs]; exact ih st
      · refine le_trans ?_ (ih (accStep seeds st t))
        rw [hs]; simp

theorem accumulate_chosen_ne_nil (maxMs : Int) (seeds : List String) (l : List Track)
    (st : AccState) (h : st.chosen_uris ≠ []) :
    (_accumulate_from_tracks maxMs seeds l st).chosen_uris ≠ [] := by
  have hm := accumulate_chosen_len_mono maxMs seeds l st
  intro hc
  rw [hc] at hm
  simp at hm
  exact h hm

theorem accumulate_eq_of_chosen_eq (maxMs : Int) (seeds : List String) (l : List Track) :
    ∀ st : AccState,
      (_accumulate_from_tracks maxMs seeds l st).chosen_uris = st.chosen_uris →
      _accumulate_from_tracks maxMs seeds l st = st := by
  induction l with
  | nil => intro st _; rfl
  | cons t ts ih =>
    intro st hch
    unfold _accumulate_from_tracks at hch ⊢
    by_cases h : maxMs ≤ st.total_ms
    · simp [h]
    · rw [if_neg h] at hch ⊢
      rcases accStep_cases seeds st t with hs | ⟨tid, uri, dur, _, _, _, _, _, _, _, hs⟩
      · rw [hs] at hch ⊢; exact ih st hch
      · exfalso
        rw [hs] at hch
        have hm := accumulate_chosen_len_mono maxMs seeds ts
          ({ total_ms := st.total_ms + dur, seen := tid :: st.seen,
             chosen_uris := st.chosen_uris ++ [uri],
             chosen_durs := st.chosen_durs ++ [dur] } : AccState)
        rw [hch] at hm
        simp at hm

theorem durBound_cons (t : Track) (ts : List Track) :
    durBound (t :: ts) =
      match t.duration_ms with
      | some d => max d (durBound ts)
      | none => durBound ts := by
  rcases h : t.duration_ms with _ | d <;> simp [durBound, List.filterMap_cons, h]

theorem durBound_nonneg (l : List Track) : 0 ≤ durBound l := by
  induction l with
  | nil => simp [durBound]
  | cons t ts ih =>
    rw [durBound_cons]
    rcases t.duration_ms with _ | d
    · exact ih
    · exact le_trans ih (le_max_right _ _)

theorem durBound_le_cons (t : Track) (ts : List Track) : durBound ts ≤ durBound (t :: ts) := by
  rw [durBound_cons]
  rcases t.duration_ms with _ | d
  · exact le_refl _
  · exact le_max_right _ _

theorem dur_le_durBound_cons (t : Track) (ts : List Track) (d : Int)
    (h : t.duration_ms = some d) : d ≤ durBound (t :: ts) := by
  rw [durBound_cons, h]
  exact le_max_left _ _

theorem accumulate_total_lt (maxMs : Int) (seeds : List String) (l : List Track) :
    ∀ st : AccState, st.total_ms < maxMs →
      (_accumulate_from_tracks maxMs seeds l st).total_ms < maxMs + durBound l := by
  induction l with
  | nil =>
    intro st h
    simpa [_accumulate_from_tracks, durBound] using h
  | cons t ts ih =>
    intro st h
    unfold _accumulate_from_tracks
    rw [if_neg (not_le.mpr h)]
    rcases accStep_cases seeds st t with hs | ⟨tid, uri, dur, _, _, hdur, _, _, _, _, hs⟩
    · rw [hs]
      exact lt_of_lt_of_le (ih st h) (by have := durBound_le_cons t ts; omega)
    · by_cases h2 : (accStep seeds st t).total_ms < maxMs
      · exact lt_of_lt_of_le (ih _ h2) (by have := durBound_le_cons t ts; omega)
      · rw [accumulate_stop maxMs seeds ts _ (not_lt.mp h2), hs]
        have hd := dur_le_durBound_cons t ts dur hdur
        simp only
        omega

theorem durBound_le_append_left (l1 l2 : List Track) : durBound l1 ≤ durBound (l1 ++ l2) := by
  induction l1 with
  | nil => simpa [durBound] using durBound_nonneg l2
  | cons t ts ih =>
    rw [List.cons_append, durBound_cons, durBound_cons]
    rcases t.duration_ms with _ | d
    · exact ih
    · exact max_le_max (le_refl d) ih

theorem durBound_le_append_right (l1 l2 : List Track) : durBound l2 ≤ durBound (l1 ++ l2) := by
  induction l1 with
  | nil => simp
  | cons t ts ih => exact le_trans ih (durBound_le_cons t (ts ++ l2))

theorem maxDurationMs_pos (dm : Option Int) (hpos : ∀ m, dm = some m → 1 ≤ m) :
    0 < maxDurationMs dm := by
  rcases dm with _ | m
  · norm_num [maxDurationMs]
  · have := hpos m rfl
    simp only [maxDurationMs]
    omega

theorem accumulate_sum_inv (maxMs : Int) (seeds : List String) (l : List Track) :
    ∀ st : AccState, st.total_ms = st.chosen_durs.sum →
      (_accumulate_from_tracks maxMs seeds l st).total_ms
        = (_accumulate_from_tracks maxMs seeds l st).chosen_durs.sum := by
  induction l with
  | nil => intro st h; exact h
  | cons t ts ih =>
    intro st h
    unfold _accumulate_from_tracks
    by_cases hb : maxMs ≤ st.total_ms
    · simpa [hb] using h
    · rw [if_neg hb]
      rcases accStep_cases seeds st t with hs | ⟨tid, uri, dur, _, _, _, _, _, _, _, hs⟩
      · rw [hs]; exact ih st h
      · refine ih _ ?_
        rw [hs]
        simp [h]

theorem accumulate_nodup_disjoint (maxMs : Int) (seeds : List String) (l : List Track) :
    ∀ st : AccState, st.seen.Nodup → (∀ s ∈ st.seen, s ∉ seeds) →
      (_accumulate_from_tracks maxMs seeds l st).seen.Nodup ∧
        (∀ s ∈ (_accumulate_from_tracks maxMs seeds l st).seen, s ∉ seeds) := by
  induction l with
  | nil => intro st h1 h2; exact ⟨h1, h2⟩
  | cons t ts ih =>
    intro st h1 h2
    unfold _accumulate_from_tracks
    by_cases hb : maxMs ≤ st.total_ms
    · simp only [if_pos hb]; exact ⟨h1, h2⟩
    · rw [if_neg hb]
      rcases accStep_cases seeds st t with hs | ⟨tid, uri, dur, _, _, _, _, hseen, hseed, _, hs⟩
      · rw [hs]; exact ih st h1 h2
      · refine ih _ ?_ ?_
        · rw [hs]; exact List.nodup_cons.mpr ⟨hseen, h1⟩
        · rw [hs]
          intro s hsm
          rcases List.mem_cons.mp hsm with rfl | hsm
          · exact hseed
          · exact h2 s hsm

theorem goodTrack_elim {seeds : List String} {t : Track} (h : goodTrack seeds t = true) :
    ∃ tid uri dur, t.id = some tid ∧ t.uri = some uri ∧ t.duration_ms = some dur ∧
      tid ≠ "" ∧ tid ∉ seeds ∧ uri ≠ "" := by
  rcases hid : t.id with _ | tid <;> rcases huri : t.uri with _ | uri <;>
    rcases hdur : t.duration_ms with _ | dur <;>
    rw [goodTrack, hid, huri, hdur] at h <;> simp at h
  exact ⟨tid, uri, dur, rfl, rfl, rfl, h.1, h.2.1, h.2.2⟩

theorem accumulate_nonempty (maxMs : Int) (seeds : List String) (l : List Track) :
    ∀ st : AccState, st.total_ms < maxMs → st.seen = [] →
      (∃ t ∈ l, goodTrack seeds t = true) →
      (_accumulate_from_tracks maxMs seeds l st).chosen_uris ≠ [] := by
  induction l with
  | nil => rintro st _ _ ⟨t, ht, _⟩; simp at ht
  | cons t ts ih =>
    rintro st hlt hseen ⟨t', ht', hg⟩
    unfold _accumulate_from_tracks
    rw [if_neg (not_le.mpr hlt)]
    rcases List.mem_cons.mp ht' with rfl | hmem
    · obtain ⟨tid, uri, dur, hid, huri, hdur, hne, hnseed, hu⟩ := goodTrack_elim hg
      have hnotseen : tid ∉ st.seen := by rw [hseen]; exact List.not_mem_nil tid
      have hstep : accStep seeds st t' =
          { total_ms := st.total_ms + dur, seen := tid :: st.seen,
            chosen_uris := st.chosen_uris ++ [uri], chosen_durs := st.chosen_durs ++ [dur] } := by
        simp [accStep, hid, huri, hdur, hne, hnotseen, hnseed, hu]
      refine accumulate_chosen_ne_nil maxMs seeds ts _ ?_
      rw [hstep]
      simp
    · rcases accStep_cases seeds st t with hs | ⟨tid, uri, dur, _, _, _, _, _, _, _, hs⟩
      · rw [hs]; exact ih st hlt hseen ⟨t', hmem, hg⟩
      · refine accumulate_chosen_ne_nil maxMs seeds ts _ ?_
        rw [hs]
        simp

theorem intercept_request_noproactive (responses : Nat → HttpOutcome)
    (refreshes : Nat → CbResult Payload) (persist : Option (Nat → CbResult Unit))
    (now : Int) (tok : String) (rt : Option String) (ea : Option Int)
    (h : ¬(is_token_expired 300 now ea = true ∧ truthy rt = true)) :
    intercept_request responses refreshes persist now tok rt ea
      = sendAndReact responses refreshes persist rt 0 tok := by
  unfold intercept_request
  rw [if_neg h]

/-!
## Claim theorems
-/

/-- C10: `refresh_expired_token` is total with respect to its refresh
callback: for every callback outcome (raising included) it propagates no
exception; it returns the new access token exactly when the callback
returns a payload with a truthy `access_token`, and returns `None` in every
other case.  Its return value is independent of the persistence callback. -/
theorem refresh_expired_token_total (cb : CbResult Payload)
    (persist persist' : Option (CbResult Unit)) (t : String) :
    ((refresh_expired_token cb persist).1 = some t ↔
      ∃ td, cb = CbResult.returns td ∧ td.access_token = some t ∧ t ≠ "") ∧
    (refresh_expired_token cb persist).1 = (refresh_expired_token cb persist').1 := by
  cases cb with
  | raises => simp [refresh_expired_token]
  | returns td =>
    rcases hat : td.access_token with _ | s
    · cases persist <;> cases persist' <;> simp [refresh_expired_token, truthy, hat]
    · by_cases hs : s = ""
      · subst hs
        cases persist <;> cases persist' <;> simp [refresh_expired_token, truthy, hat] <;>
          exact fun h => h.symm
      · cases persist <;> cases persist' <;>
          simp [refresh_expired_token, truthy, hat, hs] <;>
          exact fun h => h ▸ hs

/-- C6: the persistence callback's outcome never influences the result of
an intercepted call (a raising callback yields exactly the same outcome as
a succeeding one); and after a successful (here proactive) refresh the raw
refreshed payload is passed to the persistence callback, after which the
request proceeds with the new access token. -/
theorem persist_callback_failure_harmless (responses : Nat → HttpOutcome)
    (refreshes : Nat → CbResult Payload) (po po' : Nat → CbResult Unit)
    (now : Int) (tok : String) (rt : Option String) (ea : Option Int)
    (td : Payload) (t2 : String) :
    (intercept_request responses refreshes (some po) now tok rt ea
      = intercept_request responses refreshes (some po') now tok rt ea) ∧
    (is_token_expired 300 now ea = true → truthy rt = true →
      refreshes 0 = CbResult.returns td → td.access_token = some t2 → t2 ≠ "" →
      ∃ rest, (intercept_request responses refreshes (some po) now tok rt ea).1
        = Ev.refreshEv :: Ev.persistEv td :: Ev.reqEv t2 :: rest) := by
  constructor
  · unfold intercept_request
    by_cases h : is_token_expired 300 now ea ∧ truthy rt
    · simp only [if_pos h, Option.map_some']
      rw [refresh_persist_outcome_irrelevant (refreshes 0) (po 0) (po' 0)]
      simp only [sendAndReact_persist_irrelevant responses refreshes po po' rt]
    · simp only [if_neg h]
      exact sendAndReact_persist_irrelevant responses refreshes po po' rt 0 tok
  · intro hexp hrt hcb hat hne
    unfold intercept_request
    rw [if_pos ⟨hexp, hrt⟩]
    simp only [Option.map_some', hcb]
    have hpr : refresh_expired_token (CbResult.returns td) (some (po 0))
        = (some t2, [Ev.refreshEv, Ev.persistEv td]) := by
      simp [refresh_expired_token, truthy, hat, hne]
    rw [hpr]
    obtain ⟨rest, hs⟩ := sendAndReact_head responses refreshes (some po) rt 1 t2
    exact ⟨rest, by simp [hs]⟩

/-- Witness for `persist_callback_failure_harmless` at a concrete
environment: a token expiring in 100 s, a refresh callback returning a new
token, a persistence callback that raises on every invocation. -/
theorem persist_callback_failure_harmless_witness :
    (intercept_request (fun _ => .ok ⟨200, some "b"⟩)
        (fun _ => .returns ⟨some "new", none, none⟩) (some fun _ => .raises)
        1000 "old" (some "rt") (some 1100)
      = intercept_request (fun _ => .ok ⟨200, some "b"⟩)
        (fun _ => .returns ⟨some "new", none, none⟩) (some fun _ => .returns ())
        1000 "old" (some "rt") (some 1100)) ∧
    ∃ rest, (intercept_request (fun _ => .ok ⟨200, some "b"⟩)
        (fun _ => .returns ⟨some "new", none, none⟩) (some fun _ => .raises)
        1000 "old" (some "rt") (some 1100)).1
      = Ev.refreshEv :: Ev.persistEv ⟨some "new", none, none⟩ :: Ev.reqEv "new" :: rest := by
  have h := persist_callback_failure_harmless (fun _ => .ok ⟨200, some "b"⟩)
    (fun _ => .returns ⟨some "new", none, none⟩) (fun _ => .raises) (fun _ => .returns ())
    1000 "old" (some "rt") (some 1100) ⟨some "new", none, none⟩ "new"
  exact ⟨h.1, h.2 (by decide) (by decide) rfl rfl (by decide)⟩

/-- C3: with `expires_at` set, less than 300 s away, and a truthy refresh
token, exactly one refresh-callback invocation happens before the first
HTTP request of the call; with `expires_at` absent, or at least 300 s away,
no refresh happens before the first request. -/
theorem proactive_refresh_iff_expiring (responses : Nat → HttpOutcome)
    (refreshes : Nat → CbResult Payload) (persist : Option (Nat → CbResult Unit))
    (now : Int) (tok : String) (rt : Option String) (ea : Option Int) :
    (∀ e : Int, ea = some e → e - now < 300 → truthy rt = true →
      refreshesBeforeFirstReq
        (intercept_request responses refreshes persist now tok rt ea).1 = 1) ∧
    (ea = none →
      refreshesBeforeFirstReq
        (intercept_request responses refreshes persist now tok rt ea).1 = 0) ∧
    (∀ e : Int, ea = some e → 300 ≤ e - now →
      refreshesBeforeFirstReq
        (intercept_request responses refreshes persist now tok rt ea).1 = 0) := by
  refine ⟨?_, ?_, ?_⟩
  · intro e hea hlt hrt
    subst hea
    have hexp : is_token_expired 300 now (some e) = true := by
      simp [is_token_expired]; exact hlt
    unfold intercept_request
    rw [if_pos ⟨hexp, hrt⟩]
    rcases hpr : refresh_expired_token (refreshes 0) (Option.map (fun f => f 0) persist)
      with ⟨res, evs⟩
    rw [hpr]
    rcases refresh_events_cases (refreshes 0) (Option.map (fun f => f 0) persist)
      with hev | ⟨td, hev⟩ <;>
      rw [hpr] at hev <;>
      rcases res with _ | t
    · show refreshesBeforeFirstReq evs = 1
      rw [show evs = [Ev.refreshEv] from hev]; rfl
    · show refreshesBeforeFirstReq
        (evs ++ (sendAndReact responses refreshes persist rt 1 t).1) = 1
      obtain ⟨rest, hs⟩ := sendAndReact_head responses refreshes persist rt 1 t
      rw [hs, show evs = [Ev.refreshEv] from hev]
      simp [refreshesBeforeFirstReq, List.takeWhile, notReq]
    · show refreshesBeforeFirstReq evs = 1
      rw [show evs = [Ev.refreshEv, Ev.persistEv td] from hev]; rfl
    · show refreshesBeforeFirstReq
        (evs ++ (sendAndReact responses refreshes persist rt 1 t).1) = 1
      obtain ⟨rest, hs⟩ := sendAndReact_head responses refreshes persist rt 1 t
      rw [hs, show evs = [Ev.refreshEv, Ev.persistEv td] from hev]
      simp [refreshesBeforeFirstReq, List.takeWhile, notReq]
  · intro hea
    subst hea
    unfold intercept_request
    rw [if_neg (by simp [is_token_expired])]
    obtain ⟨rest, hs⟩ := sendAndReact_head responses refreshes persist rt 0 tok
    simp [hs, refreshesBeforeFirstReq, List.takeWhile, notReq]
  · intro e hea hge
    subst hea
    unfold intercept_request
    rw [if_neg (by simp [is_token_expired]; omega)]
    obtain ⟨rest, hs⟩ := sendAndReact_head responses refreshes persist rt 0 tok
    simp [hs, refreshesBeforeFirstReq, List.takeWhile, notReq]

/-- Witness for `proactive_refresh_iff_expiring`: a token 100 s from
expiry triggers exactly one proactive refresh; no `expires_at` triggers
none. -/
theorem proactive_refresh_iff_expiring_witness :
    refreshesBeforeFirstReq
      (intercept_request (fun _ => .ok ⟨200, some "b"⟩)
        (fun _ => .returns ⟨some "new", none, none⟩) none
        1000 "old" (some "rt") (some 1100)).1 = 1 ∧
    refreshesBeforeFirstReq
      (intercept_request (fun _ => .ok ⟨200, some "b"⟩)
        (fun _ => .returns ⟨some "new", none, none⟩) none
        1000 "old" (some "rt") none).1 = 0 := by
  constructor
  · exact (proactive_refresh_iff_expiring (fun _ => .ok ⟨200, some "b"⟩)
      (fun _ => .returns ⟨some "new", none, none⟩) none 1000 "old" (some "rt")
      (some 1100)).1 1100 rfl (by decide) (by decide)
  · exact (proactive_refresh_iff_expiring (fun _ => .ok ⟨200, some "b"⟩)
      (fun _ => .returns ⟨some "new", none, none⟩) none 1000 "old" (some "rt")
      none).2.1 rfl

/-- C1 counterexample: with a refresh token present, a first 401, a
successful reactive refresh and a second 401, `intercept_request` raises
nothing — it returns the second 401 response to the caller (after exactly
one refresh and exactly two requests), so the claimed
`AuthenticationError` does not occur. -/
theorem reactive_second_401_returned_not_raised :
    (intercept_request (fun _ => .ok ⟨401, some "e"⟩)
        (fun _ => .returns ⟨some "new", none, none⟩) none 0 "old" (some "rt") none).2
      = Except.ok ⟨401, some "e"⟩ ∧
    (intercept_request (fun _ => .ok ⟨401, some "e"⟩)
        (fun _ => .returns ⟨some "new", none, none⟩) none 0 "old" (some "rt") none).1
      = [Ev.reqEv "old", Ev.refreshEv, Ev.reqEv "new"] :=
  ⟨rfl, rfl⟩

/-- C1 (amended): a 401 response with a truthy refresh token (and no
proactive refresh pending) triggers exactly one refresh-callback
invocation; when the refresh yields a token the same request is retried
exactly once with the new token and whatever the retry returns —
a second 401 included — is returned to the caller without raising; when
the reactive refresh fails the original 401 response is returned; at most
two requests are ever issued, so no third request occurs. -/
theorem reactive_401_refresh_and_single_retry
    (responses : Nat → HttpOutcome) (refreshes : Nat → CbResult Payload)
    (persist : Option (Nat → CbResult Unit)) (now : Int) (tok : String)
    (rt : Option String) (ea : Option Int) (r : Resp)
    (hpro : is_token_expired 300 now ea = false)
    (hrt : truthy rt = true)
    (h0 : responses 0 = HttpOutcome.ok r)
    (h401 : r.status = 401) :
    refreshCount (intercept_request responses refreshes persist now tok rt ea).1 = 1 ∧
    reqCount (intercept_request responses refreshes persist now tok rt ea).1 ≤ 2 ∧
    (∀ t', (refresh_expired_token (refreshes 0) (Option.map (fun f => f 0) persist)).1
        = some t' →
      (intercept_request responses refreshes persist now tok rt ea).1
        = Ev.reqEv tok ::
            (refresh_expired_token (refreshes 0) (Option.map (fun f => f 0) persist)).2
            ++ [Ev.reqEv t'] ∧
      (∀ r2, responses 1 = HttpOutcome.ok r2 →
        (intercept_request responses refreshes persist now tok rt ea).2 = Except.ok r2) ∧
      (responses 1 = HttpOutcome.netError →
        (intercept_request responses refreshes persist now tok rt ea).2
          = Except.error IErr.apiError)) ∧
    ((refresh_expired_token (refreshes 0) (Option.map (fun f => f 0) persist)).1 = none →
      (intercept_request responses refreshes persist now tok rt ea).2 = Except.ok r ∧
      reqCount (intercept_request responses refreshes persist now tok rt ea).1 = 1) := by
  have hint : intercept_request responses refreshes persist now tok rt ea
      = sendAndReact responses refreshes persist rt 0 tok :=
    intercept_request_noproactive _ _ _ _ _ _ _ (by simp [hpro])
  rcases hpr : refresh_expired_token (refreshes 0) (Option.map (fun f => f 0) persist)
    with ⟨res, evs⟩
  have hev : refreshCount evs = 1 := by
    have h := refresh_events_refreshCount (refreshes 0) (Option.map (fun f => f 0) persist)
    rw [hpr] at h; exact h
  have hevq : reqCount evs = 0 := by
    have h := refresh_events_reqCount (refreshes 0) (Option.map (fun f => f 0) persist)
    rw [hpr] at h; exact h
  rcases res with _ | t2
  · have hform : intercept_request responses refreshes persist now tok rt ea
        = (Ev.reqEv tok :: evs, Except.ok r) := by
      rw [hint]; unfold sendAndReact
      simp [h0, h401, hrt, hpr]
    refine ⟨?_, ?_, ?_, ?_⟩
    · rw [hform]; simp [hev]
    · rw [hform]; simp [hevq]
    · intro t' ht'
      rw [hpr] at ht'
      exact Option.noConfusion ht'
    · intro _
      exact ⟨by rw [hform], by rw [hform]; simp [hevq]⟩
  · rcases h1 : responses 1 with _ | r2
    · have hform : intercept_request responses refreshes persist now tok rt ea
          = (Ev.reqEv tok :: evs ++ [Ev.reqEv t2], Except.error IErr.apiError) := by
        rw [hint]; unfold sendAndReact
        simp [h0, h401, hrt, hpr, h1]
      refine ⟨?_, ?_, ?_, ?_⟩
      · rw [hform]; simp [hev]
      · rw [hform]; simp [hevq]
      · intro t' ht'
        rw [hpr] at ht'
        have ht2 : t2 = t' := by injection ht'
        subst ht2
        refine ⟨by rw [hform, hpr], ?_, fun _ => by rw [hform]⟩
        intro r2 hr2
        exact HttpOutcome.noConfusion hr2
      · intro hnone
        rw [hpr] at hnone
        exact Option.noConfusion hnone
    · have hform : intercept_request responses refreshes persist now tok rt ea
          = (Ev.reqEv tok :: evs ++ [Ev.reqEv t2], Except.ok r2) := by
        rw [hint]; unfold sendAndReact
        simp [h0, h401, hrt, hpr, h1]
      refine ⟨?_, ?_, ?_, ?_⟩
      · rw [hform]; simp [hev]
      · rw [hform]; simp [hevq]
      · intro t' ht'
        rw [hpr] at ht'
        have ht2 : t2 = t' := by injection ht'
        subst ht2
        refine ⟨by rw [hform, hpr], ?_, ?_⟩
        · intro r2' hr2
          have : r2 = r2' := by injection hr2
          subst this
          rw [hform]
        · intro hne
          exact HttpOutcome.noConfusion hne
      · intro hnone
        rw [hpr] at hnone
        exact Option.noConfusion hnone

/-- Witness for `reactive_401_refresh_and_single_retry` at a concrete
environment where both the request and its retry return 401. -/
theorem reactive_401_refresh_and_single_retry_witness :
    refreshCount (intercept_request (fun _ => .ok ⟨401, some "e"⟩)
      (fun _ => .returns ⟨some "new", none, none⟩) none 0 "old" (some "rt") none).1 = 1 ∧
    (intercept_request (fun _ => .ok ⟨401, some "e"⟩)
      (fun _ => .returns ⟨some "new", none, none⟩) none 0 "old" (some "rt") none).2
      = Except.ok ⟨401, some "e"⟩ := by
  have h := reactive_401_refresh_and_single_retry (fun _ => .ok ⟨401, some "e"⟩)
    (fun _ => .returns ⟨some "new", none, none⟩) none 0 "old" (some "rt") none
    ⟨401, some "e"⟩ rfl (by decide) rfl rfl
  exact ⟨h.1, (h.2.2.1 "new" rfl).2.1 ⟨401, some "e"⟩ rfl⟩

/-- C5 counterexample: a 500 response with a valid JSON body is returned
by `make_request` as an ordinary parsed result, not surfaced as an
error, and triggers no refresh. -/
theorem non_401_error_returned_as_ok :
    (make_request (fun _ => .ok ⟨500, some "body"⟩) (fun _ => .raises) none 0 "tok"
        (some "rt") none).2 = Except.ok (ApiResult.parsed "body") ∧
    (make_request (fun _ => .ok ⟨500, some "body"⟩) (fun _ => .raises) none 0 "tok"
        (some "rt") none).2 ≠ Except.error IErr.apiError ∧
    refreshCount (make_request (fun _ => .ok ⟨500, some "body"⟩) (fun _ => .raises) none 0
        "tok" (some "rt") none).1 = 0 := by
  refine ⟨rfl, ?_, rfl⟩
  intro h
  have h' : (Except.ok (ApiResult.parsed "body") : Except IErr ApiResult)
      = Except.error IErr.apiError :=
    (rfl : (make_request (fun _ => .ok ⟨500, some "body"⟩) (fun _ => .raises) none 0 "tok"
        (some "rt") none).2 = Except.ok (ApiResult.parsed "body")).symm.trans h
  exact Except.noConfusion h'

/-- C5 (amended): a response whose status is not 401 triggers no token
refresh and is handed back to the caller: `intercept_request` returns the
response itself, `make_request` returns its parsed JSON body, or the
invalid-JSON marker dict when the body fails to parse; a transport-level
failure (timeout) raises `SpotifyAPIError` and triggers no refresh. -/
theorem non401_response_passthrough (responses : Nat → HttpOutcome)
    (refreshes : Nat → CbResult Payload) (persist : Option (Nat → CbResult Unit))
    (now : Int) (tok : String) (rt : Option String) (ea : Option Int) (r : Resp)
    (hpro : is_token_expired 300 now ea = false) :
    (responses 0 = HttpOutcome.ok r → r.status ≠ 401 →
      refreshCount (intercept_request responses refreshes persist now tok rt ea).1 = 0 ∧
      (intercept_request responses refreshes persist now tok rt ea).2 = Except.ok r ∧
      (∀ b, r.body = some b →
        (make_request responses refreshes persist now tok rt ea).2
          = Except.ok (ApiResult.parsed b)) ∧
      (r.body = none →
        (make_request responses refreshes persist now tok rt ea).2
          = Except.ok (ApiResult.invalidJson r.status))) ∧
    (responses 0 = HttpOutcome.netError →
      refreshCount (intercept_request responses refreshes persist now tok rt ea).1 = 0 ∧
      (intercept_request responses refreshes persist now tok rt ea).2
        = Except.error IErr.apiError) := by
  have hint : intercept_request responses refreshes persist now tok rt ea
      = sendAndReact responses refreshes persist rt 0 tok :=
    intercept_request_noproactive _ _ _ _ _ _ _ (by simp [hpro])
  constructor
  · intro h0 h401
    have hform : intercept_request responses refreshes persist now tok rt ea
        = ([Ev.reqEv tok], Except.ok r) := by
      rw [hint]; unfold sendAndReact
      simp [h0, h401]
    refine ⟨by rw [hform]; rfl, by rw [hform], ?_, ?_⟩
    · intro b hb
      simp [make_request, hform, hb, Except.map]
    · intro hb
      simp [make_request, hform, hb, Except.map]
  · intro h0
    have hform : intercept_request responses refreshes persist now tok rt ea
        = ([Ev.reqEv tok], Except.error IErr.apiError) := by
      rw [hint]; unfold sendAndReact; rw [h0]
    exact ⟨by rw [hform]; rfl, by rw [hform]⟩

/-- Witness for `non401_response_passthrough` at a concrete 503 response
with a malformed body and at a concrete timeout. -/
theorem non401_response_passthrough_witness :
    refreshCount (intercept_request (fun _ => .ok ⟨503, none⟩) (fun _ => .raises) none 0
        "tok" (some "rt") none).1 = 0 ∧
    (make_request (fun _ => .ok ⟨503, none⟩) (fun _ => .raises) none 0 "tok"
        (some "rt") none).2 = Except.ok (ApiResult.invalidJson 503) ∧
    (intercept_request (fun _ => .netError) (fun _ => .raises) none 0 "tok"
        (some "rt") none).2 = Except.error IErr.apiError := by
  have h1 := non401_response_passthrough (fun _ => .ok ⟨503, none⟩) (fun _ => .raises) none 0
    "tok" (some "rt") none ⟨503, none⟩ rfl
  have h2 := non401_response_passthrough (fun _ => .netError) (fun _ => .raises) none 0
    "tok" (some "rt") none ⟨503, none⟩ rfl
  exact ⟨(h1.1 rfl (by decide)).1, (h1.1 rfl (by decide)).2.2.2 rfl, (h2.2 rfl).2⟩

/-- C2 counterexample: with a 1-minute budget (60000 ms) and a single
150000 ms candidate, the accumulated sum is 150000 ms — the claimed
invariant `sum ≤ duration_minutes*60000` fails. -/
theorem duration_budget_exceeded :
    (pipelineAccumulate (maxDurationMs (some 1)) []
        [⟨some "a", some "u", some 150000⟩] []).chosen_durs.sum = 150000 ∧
    maxDurationMs (some 1) = 60000 ∧
    ¬((pipelineAccumulate (maxDurationMs (some 1)) []
        [⟨some "a", some "u", some 150000⟩] []).chosen_durs.sum
      ≤ maxDurationMs (some 1)) := by
  refine ⟨rfl, rfl, ?_⟩
  decide

/-- C2 (amended): the loop accepts a track only while the running total is
strictly below the budget, so the sum of accumulated durations (equal to
the running total) exceeds the budget by less than the largest candidate
duration: `sum < max_duration_ms + durBound`.  Holds on both the
recommendation and the fallback path, for every positive
`duration_minutes` (default 60). -/
theorem duration_budget_overshoot_bound (duration_minutes : Option Int)
    (seeds : List String) (recTracks fallbackTracks : List Track)
    (hpos : ∀ m, duration_minutes = some m → 1 ≤ m) :
    (pipelineAccumulate (maxDurationMs duration_minutes) seeds recTracks
        fallbackTracks).chosen_durs.sum
      = (pipelineAccumulate (maxDurationMs duration_minutes) seeds recTracks
          fallbackTracks).total_ms ∧
    (pipelineAccumulate (maxDurationMs duration_minutes) seeds recTracks
        fallbackTracks).total_ms
      < maxDurationMs duration_minutes + durBound (recTracks ++ fallbackTracks) := by
  have hmax := maxDurationMs_pos duration_minutes hpos
  unfold pipelineAccumulate
  by_cases h : (_accumulate_from_tracks (maxDurationMs duration_minutes) seeds recTracks
      initAccState).chosen_uris = []
  · have hst1 : _accumulate_from_tracks (maxDurationMs duration_minutes) seeds recTracks
        initAccState = initAccState :=
      accumulate_eq_of_chosen_eq _ _ _ _ (by rw [h]; rfl)
    rw [hst1]
    simp only [initAccState, if_pos]
    constructor
    · exact (accumulate_sum_inv _ _ _ initAccState rfl).symm
    · exact lt_of_lt_of_le
        (accumulate_total_lt _ seeds fallbackTracks initAccState hmax)
        (by have := durBound_le_append_right recTracks fallbackTracks; omega)
  · rw [if_neg h]
    constructor
    · exact (accumulate_sum_inv _ _ _ initAccState rfl).symm
    · exact lt_of_lt_of_le
        (accumulate_total_lt _ seeds recTracks initAccState hmax)
        (by have := durBound_le_append_left recTracks fallbackTracks; omega)

/-- Witness for `duration_budget_overshoot_bound` at the 1-minute budget
and the single 150000 ms candidate. -/
theorem duration_budget_overshoot_bound_witness :
    (pipelineAccumulate (maxDurationMs (some 1)) []
        [⟨some "a", some "u", some 150000⟩] []).chosen_durs.sum
      = (pipelineAccumulate (maxDurationMs (some 1)) []
          [⟨some "a", some "u", some 150000⟩] []).total_ms ∧
    (pipelineAccumulate (maxDurationMs (some 1)) []
        [⟨some "a", some "u", some 150000⟩] []).total_ms
      < maxDurationMs (some 1) + durBound ([⟨some "a", some "u", some 150000⟩] ++ []) :=
  duration_budget_overshoot_bound (some 1) [] [⟨some "a", some "u", some 150000⟩] []
    (fun m hm => by injection hm with h; omega)

/-- C4: the seeds placed in one recommendation request satisfy the seed
budget: at most 3 track seeds, at most 2 artist seeds, genre seeds at most
the remaining budget, and at most 5 seeds in total — for all inputs. -/
theorem seed_budget_bound (topTracks : List Track) (topArtists : List Artist)
    (available music_genres : List String) :
    (seedTrackIds topTracks).length ≤ 3 ∧
    (seedArtistIds topArtists).length ≤ 2 ∧
    (seed_genres_used available music_genres topTracks topArtists).length
      ≤ remaining_seed_slots (seedTrackIds topTracks).length
          (seedArtistIds topArtists).length ∧
    (seedTrackIds topTracks).length + (seedArtistIds topArtists).length
      + (seed_genres_used available music_genres topTracks topArtists).length ≤ 5 := by
  have h1 : (seedTrackIds topTracks).length ≤ 3 :=
    le_trans (List.length_filterMap_le _ _) (by simp [List.length_take])
  have h2 : (seedArtistIds topArtists).length ≤ 2 :=
    le_trans (List.length_filterMap_le _ _) (by simp [List.length_take])
  have h3 : (seed_genres_used available music_genres topTracks topArtists).length
      ≤ remaining_seed_slots (seedTrackIds topTracks).length
          (seedArtistIds topArtists).length := by
    unfold seed_genres_used
    exact List.length_take_le _ _
  have h4 : remaining_seed_slots (seedTrackIds topTracks).length
      (seedArtistIds topArtists).length
      = 5 - ((seedTrackIds topTracks).length + (seedArtistIds topArtists).length) := by
    unfold remaining_seed_slots
    omega
  exact ⟨h1, h2, h3, by omega⟩

/-- C7: on both the recommendation path and the fallback path the same
dedupe rule holds: the accumulated track ids are pairwise distinct and
disjoint from the seed-track ids. -/
theorem dedupe_invariant (maxMs : Int) (seeds : List String)
    (recTracks fallbackTracks : List Track) :
    (pipelineAccumulate maxMs seeds recTracks fallbackTracks).seen.Nodup ∧
    (pipelineAccumulate maxMs seeds recTracks fallbackTracks).seen.Disjoint seeds := by
  have h1 := accumulate_nodup_disjoint maxMs seeds recTracks initAccState
    (by simp [initAccState]) (by simp [initAccState])
  unfold pipelineAccumulate
  by_cases h : (_accumulate_from_tracks maxMs seeds recTracks initAccState).chosen_uris = []
  · rw [if_pos h]
    have h2 := accumulate_nodup_disjoint maxMs seeds fallbackTracks _ h1.1 h1.2
    exact ⟨h2.1, fun a ha hb => h2.2 a ha hb⟩
  · rw [if_neg h]
    exact ⟨h1.1, fun a ha hb => h1.2 a ha hb⟩

/-- Witness for `dedupe_invariant` at a concrete run whose candidates
contain the seed id and a duplicate. -/
theorem dedupe_invariant_witness :
    (pipelineAccumulate 3600000 ["a"]
        [⟨some "a", some "ua", some 1000⟩, ⟨some "b", some "ub", some 1000⟩,
          ⟨some "b", some "ub", some 1000⟩] []).seen.Nodup ∧
    (pipelineAccumulate 3600000 ["a"]
        [⟨some "a", some "ua", some 1000⟩, ⟨some "b", some "ub", some 1000⟩,
          ⟨some "b", some "ub", some 1000⟩] []).seen.Disjoint ["a"] :=
  dedupe_invariant 3600000 ["a"]
    [⟨some "a", some "ua", some 1000⟩, ⟨some "b", some "ub", some 1000⟩,
      ⟨some "b", some "ub", some 1000⟩] []

/-- C8 counterexample: the source does not deduplicate requested genres —
requesting `["rock", "rock"]` against an available list `["rock"]` with a
full seed budget yields `["rock", "rock"]`, not the deduplicated
`["rock"]` the claim describes. -/
theorem genre_seeds_not_deduplicated :
    seed_genres_used ["rock"] ["rock", "rock"] [] [] = ["rock", "rock"] ∧
    spec_seed_genres ["rock"] ["rock", "rock"] (remaining_seed_slots 0 0) = ["rock"] ∧
    seed_genres_used ["rock"] ["rock", "rock"] [] []
      ≠ spec_seed_genres ["rock"] ["rock", "rock"] (remaining_seed_slots 0 0) := by
  refine ⟨by decide, by decide, by decide⟩

/-- C8 (amended): the genres used as recommendation seeds are exactly the
stripped, lower-cased non-blank requested genres — duplicates preserved —
truncated to at most 5 before validation, filtered to the provider's
available list, then truncated to the remaining seed budget. -/
theorem genre_seeds_amended_refinement (available music_genres : List String)
    (topTracks : List Track) (topArtists : List Artist) :
    seed_genres_used available music_genres topTracks topArtists
      = spec_seed_genres_amended available music_genres
          (remaining_seed_slots (seedTrackIds topTracks).length
            (seedArtistIds topArtists).length) := by
  unfold seed_genres_used validated_genres requested_genres spec_seed_genres_amended
  have key : ∀ gs : List String,
      (gs.filter fun g => g ≠ "" ∧ pyStrip g ≠ "").map (fun g => pyLower (pyStrip g))
        = gs.filterMap fun g =>
            if g = "" ∨ pyStrip g = "" then none else some (pyLower (pyStrip g)) := by
    intro gs
    induction gs with
    | nil => rfl
    | cons g gs ih =>
      rw [List.filter_cons, List.filterMap_cons]
      by_cases h1 : g = ""
      · rw [if_neg (by simp [h1]), if_pos (Or.inl h1)]
        exact ih
      · by_cases h2 : pyStrip g = ""
        · rw [if_neg (by simp [h2]), if_pos (Or.inr h2)]
          exact ih
        · rw [if_pos (by simp [h1, h2]), if_neg (by simp [h1, h2])]
          rw [List.map_cons]
          exact congrArg (List.cons (pyLower (pyStrip g))) ih
  rw [key]

/-- C9 counterexample: recommendations are empty and the top-tracks list is
non-empty, yet the fallback accumulation yields an empty track list — the
lone top track's id is itself a seed-track id, so the dedupe rule skips
it. -/
theorem fallback_empty_despite_nonempty_top_tracks :
    seedTrackIds [⟨some "a", some "u", some 200000⟩] = ["a"] ∧
    (pipelineAccumulate (maxDurationMs (some 30))
        (seedTrackIds [⟨some "a", some "u", some 200000⟩]) []
        [⟨some "a", some "u", some 200000⟩]).chosen_uris = [] := by
  refine ⟨by decide, by decide⟩

/-- C9 (amended): when the recommendation path chose nothing, the budget is
positive and the union of top and recently played tracks contains at least
one candidate with a truthy id outside the seed-track ids, a truthy uri
and an int duration, the fallback accumulation yields a non-empty track
list for every shuffle order, with the accumulated total within the
budget-plus-largest-candidate bound. -/
theorem fallback_nonempty_for_eligible_candidate (duration_minutes : Option Int)
    (topTracks recentTracks recTracks comb : List Track)
    (hpos : ∀ m, duration_minutes = some m → 1 ≤ m)
    (hempty : (_accumulate_from_tracks (maxDurationMs duration_minutes)
        (seedTrackIds topTracks) recTracks initAccState).chosen_uris = [])
    (hgood : ∃ t ∈ topTracks ++ recentTracks,
        goodTrack (seedTrackIds topTracks) t = true)
    (hperm : comb.Perm (topTracks ++ recentTracks)) :
    (pipelineAccumulate (maxDurationMs duration_minutes) (seedTrackIds topTracks)
        recTracks comb).chosen_uris ≠ [] ∧
    (pipelineAccumulate (maxDurationMs duration_minutes) (seedTrackIds topTracks)
        recTracks comb).total_ms
      < maxDurationMs duration_minutes + durBound comb := by
  have hmax := maxDurationMs_pos duration_minutes hpos
  have hst1 : _accumulate_from_tracks (maxDurationMs duration_minutes)
      (seedTrackIds topTracks) recTracks initAccState = initAccState :=
    accumulate_eq_of_chosen_eq _ _ _ _ (by rw [hempty]; rfl)
  have hpipe : pipelineAccumulate (maxDurationMs duration_minutes) (seedTrackIds topTracks)
      recTracks comb
      = _accumulate_from_tracks (maxDurationMs duration_minutes) (seedTrackIds topTracks)
          comb initAccState := by
    unfold pipelineAccumulate
    rw [hst1]
    simp [initAccState]
  rw [hpipe]
  constructor
  · refine accumulate_nonempty _ _ comb initAccState hmax rfl ?_
    obtain ⟨t, ht, hg⟩ := hgood
    exact ⟨t, hperm.mem_iff.mpr ht, hg⟩
  · exact accumulate_total_lt _ _ comb initAccState hmax

/-- Witness for `fallback_nonempty_for_eligible_candidate`: no top tracks,
one eligible recently played track, empty recommendations. -/
theorem fallback_nonempty_witness :
    (pipelineAccumulate (maxDurationMs (some 30)) (seedTrackIds ([] : List Track)) []
        [⟨some "c", some "w", some 3000⟩]).chosen_uris ≠ [] ∧
    (pipelineAccumulate (maxDurationMs (some 30)) (seedTrackIds ([] : List Track)) []
        [⟨some "c", some "w", some 3000⟩]).total_ms
      < maxDurationMs (some 30) + durBound [⟨some "c", some "w", some 3000⟩] :=
  fallback_nonempty_for_eligible_candidate (some 30) [] [⟨some "c", some "w", some 3000⟩]
    [] [⟨some "c", some "w", some 3000⟩]
    (fun m hm => by injection hm with h; omega)
    rfl
    ⟨⟨some "c", some "w", some 3000⟩, by simp, by decide⟩
    (List.Perm.refl _)

end SyncNSweat
